import Mathlib

/-!
Verification of the `policy` package: a minimal attribute-based access
control (ABAC) evaluator.  The Lean definitions below are a shallow
embedding of the Go source file `abac.go`: structures mirror the Go
structs field for field, and the matching functions mirror the Go
functions line for line (Go slices become Lean lists, early-return
loops become `List.any`).
-/

/-- Embeds the Go struct `PolicySpec` (abac.go): one declarative policy
rule with six string pattern fields and a read-only boolean. -/
structure PolicySpec where
  Role : String
  User : String
  Group : String
  Resource : String
  Namespace : String
  ReadOnly : Bool
  NonResourcePath : String
deriving Repr, DecidableEq

/-- Embeds the Go struct `UserAttributes` (abac.go). -/
structure UserAttributes where
  UserID : String
  GroupID : String
  Roles : List String
deriving Repr, DecidableEq

/-- Embeds the Go struct `ResourceAttributes` (abac.go). -/
structure ResourceAttributes where
  Resource : String
  Namespace : String
  ReadOnly : Bool
deriving Repr, DecidableEq

/-- Embeds the Go struct `PolicyManager` (abac.go): holds the ordered
policy store. -/
structure PolicyManager where
  policies : List PolicySpec
deriving Repr, DecidableEq

/-- Embeds Go `matchesString` (abac.go): a value matches a pattern when
the pattern is the wildcard, the empty string, or equal to the value. -/
def matchesString (pattern value : String) : Bool :=
  pattern == "*" || pattern == "" || pattern == value

/-- Embeds Go `matchesSlice` (abac.go): wildcard or empty pattern
matches any list; otherwise the pattern must occur in the list. -/
def matchesSlice (pattern : String) (list : List String) : Bool :=
  if pattern == "*" || pattern == "" then true
  else list.any (fun v => v == pattern)

/-- Embeds Go `(*PolicyManager).matchPolicy` (abac.go): the conjunction
of the seven field checks.  The Go method ignores its receiver, so it is
embedded as a standalone function. -/
def matchPolicy (policy : PolicySpec) (user : UserAttributes) (resource : ResourceAttributes) : Bool :=
  matchesSlice policy.Role user.Roles &&
  matchesString policy.User user.UserID &&
  matchesString policy.Group user.GroupID &&
  matchesString policy.Resource resource.Resource &&
  matchesString policy.Namespace resource.Namespace &&
  matchesString policy.NonResourcePath resource.Resource &&
  (policy.ReadOnly == resource.ReadOnly)

/-- Embeds Go `(*PolicyManager).Evaluate` (abac.go): return `true` as
soon as one stored rule matches, `false` otherwise. -/
def PolicyManager.Evaluate (p : PolicyManager) (user : UserAttributes) (resource : ResourceAttributes) : Bool :=
  p.policies.any (fun policy => matchPolicy policy user resource)

/-- Embeds Go `defaultPolicies` (abac.go): the fixed two-entry default
table. -/
def defaultPolicies : List PolicySpec :=
  [{ Role := "*", User := "*", Group := "*", Resource := "*", Namespace := "*", ReadOnly := true, NonResourcePath := "*" },
   { Role := "admin", User := "*", Group := "*", Resource := "*", Namespace := "*", ReadOnly := false, NonResourcePath := "*" }]

/-- Embeds Go `PolicyOption` (abac.go).  Go options mutate the manager
in place; here an option is a pure transformer. -/
def PolicyOption := PolicyManager → PolicyManager

/-- Embeds Go `WithDefaultPolicies` (abac.go): appends the default
table to the accumulated policies. -/
def WithDefaultPolicies : PolicyOption :=
  fun p => { p with policies := p.policies ++ defaultPolicies }

/-- Embeds Go `WithPolicies` (abac.go): appends the given policies to
the accumulated policies. -/
def WithPolicies (policies : List PolicySpec) : PolicyOption :=
  fun p => { p with policies := p.policies ++ policies }

/-- Embeds Go `NewPolicyManager` (abac.go): start from an empty manager
and apply the options in order. -/
def NewPolicyManager (opts : List PolicyOption) : PolicyManager :=
  opts.foldl (fun p opt => opt p) { policies := [] }

/-! Helper lemmas characterizing the matchers. -/

/-- Characterization of `matchesString` as a proposition. -/
theorem matchesString_eq_true_iff (pattern value : String) :
    matchesString pattern value = true ↔
      pattern = "*" ∨ pattern = "" ∨ pattern = value := by
  simp [matchesString, or_assoc]

/-- Characterization of `matchesSlice` as a proposition. -/
theorem matchesSlice_eq_true_iff (pattern : String) (list : List String) :
    matchesSlice pattern list = true ↔
      pattern = "*" ∨ pattern = "" ∨ pattern ∈ list := by
  unfold matchesSlice
  split
  · next h =>
    simp only [Bool.or_eq_true, beq_iff_eq] at h
    rcases h with h | h <;> simp [h]
  · next h =>
    simp only [Bool.or_eq_true, beq_iff_eq] at h
    push_neg at h
    simp only [List.any_eq_true, beq_iff_eq, h.1, h.2, false_or]
    constructor
    · rintro ⟨v, hv, rfl⟩; exact hv
    · intro hv; exact ⟨pattern, hv, rfl⟩

/-- Characterization of `matchPolicy` as the conjunction of the seven
field conditions. -/
theorem matchPolicy_eq_true_iff (p : PolicySpec) (u : UserAttributes) (r : ResourceAttributes) :
    matchPolicy p u r = true ↔
      (p.Role = "*" ∨ p.Role = "" ∨ p.Role ∈ u.Roles) ∧
      (p.User = "*" ∨ p.User = "" ∨ p.User = u.UserID) ∧
      (p.Group = "*" ∨ p.Group = "" ∨ p.Group = u.GroupID) ∧
      (p.Resource = "*" ∨ p.Resource = "" ∨ p.Resource = r.Resource) ∧
      (p.Namespace = "*" ∨ p.Namespace = "" ∨ p.Namespace = r.Namespace) ∧
      (p.NonResourcePath = "*" ∨ p.NonResourcePath = "" ∨ p.NonResourcePath = r.Resource) ∧
      p.ReadOnly = r.ReadOnly := by
  simp [matchPolicy, matchesSlice_eq_true_iff, matchesString_eq_true_iff, and_assoc]

/-- Characterization of `Evaluate` as an existential over the store. -/
theorem Evaluate_eq_true_iff (pm : PolicyManager) (u : UserAttributes) (r : ResourceAttributes) :
    pm.Evaluate u r = true ↔ ∃ p ∈ pm.policies, matchPolicy p u r = true := by
  simp [PolicyManager.Evaluate, List.any_eq_true]

/-! Claim theorems. -/

/-- C1: a `PolicySpec` rule matches a request iff all seven conditions
hold simultaneously: the role pattern is wildcard/empty or occurs in
the user's roles list; the user, group, resource, namespace and
nonResourcePath patterns are each wildcard/empty or equal to the
corresponding request value (the resource name being reused for the
nonResourcePath comparison); and the rule's ReadOnly boolean equals the
resource's ReadOnly boolean. -/
theorem matchPolicy_iff_seven_conditions (p : PolicySpec) (u : UserAttributes) (r : ResourceAttributes) :
    matchPolicy p u r = true ↔
      (p.Role = "*" ∨ p.Role = "" ∨ p.Role ∈ u.Roles) ∧
      (p.User = "*" ∨ p.User = "" ∨ p.User = u.UserID) ∧
      (p.Group = "*" ∨ p.Group = "" ∨ p.Group = u.GroupID) ∧
      (p.Resource = "*" ∨ p.Resource = "" ∨ p.Resource = r.Resource) ∧
      (p.Namespace = "*" ∨ p.Namespace = "" ∨ p.Namespace = r.Namespace) ∧
      (p.NonResourcePath = "*" ∨ p.NonResourcePath = "" ∨ p.NonResourcePath = r.Resource) ∧
      p.ReadOnly = r.ReadOnly := by
  exact matchPolicy_eq_true_iff p u r

/-- C2: `Evaluate` returns `true` iff at least one rule in the store
matches the request (disjunction across rules in store order), and for
the empty store `Evaluate` returns `false` on every request. -/
theorem Evaluate_iff_exists_match (pm : PolicyManager) (u : UserAttributes) (r : ResourceAttributes) :
    (pm.Evaluate u r = true ↔ ∃ p ∈ pm.policies, matchPolicy p u r = true) ∧
    PolicyManager.Evaluate { policies := [] } u r = false := by
  exact ⟨Evaluate_eq_true_iff pm u r, rfl⟩

/-- C3 counterexample: with the Scenario A rule exactly as the claim
states it (user pattern wildcard), the user `{userID := user2, roles :=
[admin]}` and the resource `{resource := resource1, readOnly := false}`,
`Evaluate` returns `true`, not `false` as the claim asserts: the
wildcard user pattern matches every user ID. -/
theorem scenarioB_wildcard_user_evaluates_true :
    PolicyManager.Evaluate
      { policies := [{ Role := "admin", User := "*", Group := "*", Resource := "resource1",
                       Namespace := "*", ReadOnly := false, NonResourcePath := "*" }] }
      { UserID := "user2", GroupID := "group1", Roles := ["admin"] }
      { Resource := "resource1", Namespace := "namespace1", ReadOnly := false } = true := by
  rfl

/-- C3 amended: in the repository's own test the Scenario B rule
constrains the user field to `"user1"` rather than the wildcard; with
that rule, the user `{userID := user2, roles := [admin]}`, and the
resource `{resource := resource1, readOnly := false}`, `Evaluate`
returns `false` (the role matches but the user pattern fails). -/
theorem scenarioB_user1_pattern_evaluates_false :
    PolicyManager.Evaluate
      { policies := [{ Role := "admin", User := "user1", Group := "", Resource := "resource1",
                       Namespace := "", ReadOnly := false, NonResourcePath := "" }] }
      { UserID := "user2", GroupID := "group1", Roles := ["admin"] }
      { Resource := "resource1", Namespace := "namespace1", ReadOnly := false } = false := by
  rfl

/-- Two booleans are equal when their truth conditions are equivalent. -/
theorem bool_eq_of_iff {a b : Bool} (h : a = true ↔ b = true) : a = b := by
  cases a <;> cases b <;> simp_all

/-- C4: for a rule whose six pattern fields are all wildcard or empty,
`Evaluate` on the single-rule store returns exactly the boolean equality
of the resource's ReadOnly flag with the rule's ReadOnly flag: in
particular the ReadOnly field admits no wildcard. -/
theorem Evaluate_all_wildcard_eq_readOnly_test (p : PolicySpec) (u : UserAttributes) (r : ResourceAttributes)
    (hRole : p.Role = "*" ∨ p.Role = "")
    (hUser : p.User = "*" ∨ p.User = "")
    (hGroup : p.Group = "*" ∨ p.Group = "")
    (hResource : p.Resource = "*" ∨ p.Resource = "")
    (hNamespace : p.Namespace = "*" ∨ p.Namespace = "")
    (hPath : p.NonResourcePath = "*" ∨ p.NonResourcePath = "") :
    PolicyManager.Evaluate { policies := [p] } u r = (r.ReadOnly == p.ReadOnly) := by
  have h1 : matchesSlice p.Role u.Roles = true := by
    rcases hRole with h | h <;> simp [matchesSlice, h]
  have h2 : matchesString p.User u.UserID = true := by
    rcases hUser with h | h <;> simp [matchesString, h]
  have h3 : matchesString p.Group u.GroupID = true := by
    rcases hGroup with h | h <;> simp [matchesString, h]
  have h4 : matchesString p.Resource r.Resource = true := by
    rcases hResource with h | h <;> simp [matchesString, h]
  have h5 : matchesString p.Namespace r.Namespace = true := by
    rcases hNamespace with h | h <;> simp [matchesString, h]
  have h6 : matchesString p.NonResourcePath r.Resource = true := by
    rcases hPath with h | h <;> simp [matchesString, h]
  simp only [PolicyManager.Evaluate, List.any_cons, List.any_nil, Bool.or_false,
    matchPolicy, h1, h2, h3, h4, h5, h6, Bool.true_and]
  cases p.ReadOnly <;> cases r.ReadOnly <;> rfl

/-- C4 witness: a rule with alternating wildcard and empty pattern
fields and `ReadOnly := true` against a non-read-only request evaluates
to `false == true`. -/
theorem Evaluate_all_wildcard_eq_readOnly_test_witness :
    PolicyManager.Evaluate
      { policies := [{ Role := "*", User := "", Group := "*", Resource := "",
                       Namespace := "*", ReadOnly := true, NonResourcePath := "" }] }
      { UserID := "u", GroupID := "g", Roles := ["viewer"] }
      { Resource := "res", Namespace := "ns", ReadOnly := false } = (false == true) :=
  Evaluate_all_wildcard_eq_readOnly_test _ _ _
    (Or.inl rfl) (Or.inr rfl) (Or.inl rfl) (Or.inr rfl) (Or.inl rfl) (Or.inr rfl)

/-- One of the six string pattern fields of a `PolicySpec`. -/
inductive RuleField where
  | role
  | user
  | group
  | resource
  | nspace
  | nonResourcePath
deriving Repr, DecidableEq

/-- Reads the given pattern field of a rule. -/
def getField : RuleField → PolicySpec → String
  | .role, p => p.Role
  | .user, p => p.User
  | .group, p => p.Group
  | .resource, p => p.Resource
  | .nspace, p => p.Namespace
  | .nonResourcePath, p => p.NonResourcePath

/-- Replaces the given pattern field of a rule. -/
def setField : RuleField → String → PolicySpec → PolicySpec
  | .role, s, p => { p with Role := s }
  | .user, s, p => { p with User := s }
  | .group, s, p => { p with Group := s }
  | .resource, s, p => { p with Resource := s }
  | .nspace, s, p => { p with Namespace := s }
  | .nonResourcePath, s, p => { p with NonResourcePath := s }

/-- Swaps the wildcard spelling of a pattern: maps the star to the
empty string, the empty string to the star, and leaves every other
pattern unchanged. -/
def swapWildcard (s : String) : String :=
  if s = "*" then "" else if s = "" then "*" else s

/-- `matchesString` is insensitive to the wildcard spelling of the
pattern. -/
theorem matchesString_swapWildcard (s v : String) :
    matchesString (swapWildcard s) v = matchesString s v := by
  by_cases h1 : s = "*"
  · subst h1; simp [swapWildcard, matchesString]
  · by_cases h2 : s = ""
    · subst h2; simp [swapWildcard, matchesString]
    · simp [swapWildcard, h1, h2]

/-- `matchesSlice` is insensitive to the wildcard spelling of the
pattern. -/
theorem matchesSlice_swapWildcard (s : String) (l : List String) :
    matchesSlice (swapWildcard s) l = matchesSlice s l := by
  by_cases h1 : s = "*"
  · subst h1; simp [swapWildcard, matchesSlice]
  · by_cases h2 : s = ""
    · subst h2; simp [swapWildcard, matchesSlice]
    · simp [swapWildcard, h1, h2]

/-- C5: swapping the wildcard spelling (star versus empty string) of
any one pattern field of any rule changes neither the rule's match
result on any request nor the result of `Evaluate` over any store
containing the modified rule. -/
theorem swap_wildcard_preserves_evaluation (f : RuleField) (p : PolicySpec) (u : UserAttributes) (r : ResourceAttributes) :
    matchPolicy (setField f (swapWildcard (getField f p)) p) u r = matchPolicy p u r ∧
    ∀ pre post : List PolicySpec,
      PolicyManager.Evaluate { policies := pre ++ setField f (swapWildcard (getField f p)) p :: post } u r =
      PolicyManager.Evaluate { policies := pre ++ p :: post } u r := by
  have hm : matchPolicy (setField f (swapWildcard (getField f p)) p) u r = matchPolicy p u r := by
    cases f <;>
      simp [setField, getField, matchPolicy, matchesString_swapWildcard, matchesSlice_swapWildcard]
  refine ⟨hm, fun pre post => ?_⟩
  simp [PolicyManager.Evaluate, List.any_append, List.any_cons, hm]

/-- C6: reordering the rules of a store never changes the result of
`Evaluate` for a fixed request. -/
theorem Evaluate_perm_invariant (s t : List PolicySpec) (h : List.Perm s t)
    (u : UserAttributes) (r : ResourceAttributes) :
    PolicyManager.Evaluate { policies := s } u r =
    PolicyManager.Evaluate { policies := t } u r := by
  apply bool_eq_of_iff
  simp only [Evaluate_eq_true_iff]
  constructor
  · rintro ⟨p, hp, hmatch⟩; exact ⟨p, h.mem_iff.mp hp, hmatch⟩
  · rintro ⟨p, hp, hmatch⟩; exact ⟨p, h.mem_iff.mpr hp, hmatch⟩

/-- C6 witness: swapping the two rules of the default table gives the
same evaluation result on a concrete write request. -/
theorem Evaluate_perm_invariant_witness :
    PolicyManager.Evaluate
      { policies := [{ Role := "*", User := "*", Group := "*", Resource := "*",
                       Namespace := "*", ReadOnly := true, NonResourcePath := "*" },
                     { Role := "admin", User := "*", Group := "*", Resource := "*",
                       Namespace := "*", ReadOnly := false, NonResourcePath := "*" }] }
      { UserID := "u", GroupID := "g", Roles := ["admin"] }
      { Resource := "res", Namespace := "ns", ReadOnly := false } =
    PolicyManager.Evaluate
      { policies := [{ Role := "admin", User := "*", Group := "*", Resource := "*",
                       Namespace := "*", ReadOnly := false, NonResourcePath := "*" },
                     { Role := "*", User := "*", Group := "*", Resource := "*",
                       Namespace := "*", ReadOnly := true, NonResourcePath := "*" }] }
      { UserID := "u", GroupID := "g", Roles := ["admin"] }
      { Resource := "res", Namespace := "ns", ReadOnly := false } :=
  Evaluate_perm_invariant _ _
    (List.Perm.swap
      { Role := "admin", User := "*", Group := "*", Resource := "*",
        Namespace := "*", ReadOnly := false, NonResourcePath := "*" }
      { Role := "*", User := "*", Group := "*", Resource := "*",
        Namespace := "*", ReadOnly := true, NonResourcePath := "*" }
      [])
    { UserID := "u", GroupID := "g", Roles := ["admin"] }
    { Resource := "res", Namespace := "ns", ReadOnly := false }

/-- `matchesSlice` only depends on which strings occur in the list. -/
theorem matchesSlice_congr_mem (pattern : String) (l₁ l₂ : List String)
    (h : ∀ x, x ∈ l₁ ↔ x ∈ l₂) :
    matchesSlice pattern l₁ = matchesSlice pattern l₂ := by
  apply bool_eq_of_iff
  simp only [matchesSlice_eq_true_iff, h pattern]

/-- C7: replacing the user's roles list by any list with the same
members (any permutation or duplication) changes neither the match
result of any rule nor any `Evaluate` result; moreover a non-wildcard,
non-empty role pattern matches iff it occurs in the roles list. -/
theorem roles_treated_as_set (p : PolicySpec) (u : UserAttributes) (r : ResourceAttributes)
    (l : List String) (h : ∀ x, x ∈ l ↔ x ∈ u.Roles) :
    matchPolicy p { u with Roles := l } r = matchPolicy p u r ∧
    (∀ s : List PolicySpec,
      PolicyManager.Evaluate { policies := s } { u with Roles := l } r =
      PolicyManager.Evaluate { policies := s } u r) ∧
    (p.Role ≠ "*" → p.Role ≠ "" →
      (matchesSlice p.Role u.Roles = true ↔ p.Role ∈ u.Roles)) := by
  have hm : ∀ q : PolicySpec, matchPolicy q { u with Roles := l } r = matchPolicy q u r := by
    intro q
    simp [matchPolicy, matchesSlice_congr_mem q.Role l u.Roles h]
  refine ⟨hm p, fun s => ?_, fun h1 h2 => ?_⟩
  · apply bool_eq_of_iff
    simp only [Evaluate_eq_true_iff]
    constructor
    · rintro ⟨q, hq, hmatch⟩; exact ⟨q, hq, (hm q) ▸ hmatch⟩
    · rintro ⟨q, hq, hmatch⟩; exact ⟨q, hq, (hm q).symm ▸ hmatch⟩
  · simp [matchesSlice_eq_true_iff, h1, h2]

/-- C7 witness: duplicating and reordering the roles list `[a, b]` into
`[b, a, a]` leaves the match result of a rule with role pattern `a`
unchanged. -/
theorem roles_treated_as_set_witness :
    matchPolicy
      { Role := "a", User := "*", Group := "*", Resource := "*",
        Namespace := "*", ReadOnly := false, NonResourcePath := "*" }
      { UserID := "u", GroupID := "g", Roles := ["b", "a", "a"] }
      { Resource := "res", Namespace := "ns", ReadOnly := false } =
    matchPolicy
      { Role := "a", User := "*", Group := "*", Resource := "*",
        Namespace := "*", ReadOnly := false, NonResourcePath := "*" }
      { UserID := "u", GroupID := "g", Roles := ["a", "b"] }
      { Resource := "res", Namespace := "ns", ReadOnly := false } :=
  (roles_treated_as_set _
    { UserID := "u", GroupID := "g", Roles := ["a", "b"] } _
    ["b", "a", "a"]
    (by intro x; constructor <;> (intro hx; simp at hx ⊢; tauto))).1

/-- C8: the default table consists of exactly the two stated rules in
order, `WithDefaultPolicies` appends exactly that table, and any store
containing the defaults evaluates every read-only request to true and
every non-read-only request to true when the user has the admin role. -/
theorem defaultPolicies_table_and_grants (pm : PolicyManager) (s : List PolicySpec)
    (u : UserAttributes) (r : ResourceAttributes)
    (hs : ∀ p ∈ defaultPolicies, p ∈ s) :
    defaultPolicies =
      [{ Role := "*", User := "*", Group := "*", Resource := "*",
         Namespace := "*", ReadOnly := true, NonResourcePath := "*" },
       { Role := "admin", User := "*", Group := "*", Resource := "*",
         Namespace := "*", ReadOnly := false, NonResourcePath := "*" }] ∧
    (WithDefaultPolicies pm).policies = pm.policies ++ defaultPolicies ∧
    (r.ReadOnly = true → PolicyManager.Evaluate { policies := s } u r = true) ∧
    ("admin" ∈ u.Roles → r.ReadOnly = false →
      PolicyManager.Evaluate { policies := s } u r = true) := by
  refine ⟨rfl, rfl, fun hro => ?_, fun hadmin hro => ?_⟩
  · apply (Evaluate_eq_true_iff { policies := s } u r).mpr
    refine ⟨{ Role := "*", User := "*", Group := "*", Resource := "*",
              Namespace := "*", ReadOnly := true, NonResourcePath := "*" },
            hs _ (by simp [defaultPolicies]), ?_⟩
    apply (matchPolicy_eq_true_iff _ u r).mpr
    exact ⟨Or.inl rfl, Or.inl rfl, Or.inl rfl, Or.inl rfl, Or.inl rfl, Or.inl rfl, hro.symm⟩
  · apply (Evaluate_eq_true_iff { policies := s } u r).mpr
    refine ⟨{ Role := "admin", User := "*", Group := "*", Resource := "*",
              Namespace := "*", ReadOnly := false, NonResourcePath := "*" },
            hs _ (by simp [defaultPolicies]), ?_⟩
    apply (matchPolicy_eq_true_iff _ u r).mpr
    exact ⟨Or.inr (Or.inr hadmin), Or.inl rfl, Or.inl rfl, Or.inl rfl, Or.inl rfl, Or.inl rfl, hro.symm⟩

/-- C8 witness: the store consisting of the default table itself grants
a concrete read-only request. -/
theorem defaultPolicies_table_and_grants_witness :
    PolicyManager.Evaluate { policies := defaultPolicies }
      { UserID := "u", GroupID := "g", Roles := [] }
      { Resource := "res", Namespace := "ns", ReadOnly := true } = true :=
  (defaultPolicies_table_and_grants { policies := [] } defaultPolicies
    { UserID := "u", GroupID := "g", Roles := [] }
    { Resource := "res", Namespace := "ns", ReadOnly := true }
    (fun _ hp => hp)).2.2.1 rfl

/-- C9: a rule whose Resource and NonResourcePath patterns are both
non-wildcard, non-empty, and different from each other matches no
request at all, and inserting such a rule anywhere in a store never
changes any `Evaluate` result. -/
theorem unsatisfiable_rule_never_matches (p : PolicySpec)
    (h1 : p.Resource ≠ "*") (h2 : p.Resource ≠ "")
    (h3 : p.NonResourcePath ≠ "*") (h4 : p.NonResourcePath ≠ "")
    (h5 : p.Resource ≠ p.NonResourcePath) :
    (∀ (u : UserAttributes) (r : ResourceAttributes), matchPolicy p u r = false) ∧
    (∀ (pre post : List PolicySpec) (u : UserAttributes) (r : ResourceAttributes),
      PolicyManager.Evaluate { policies := pre ++ p :: post } u r =
      PolicyManager.Evaluate { policies := pre ++ post } u r) := by
  have hm : ∀ (u : UserAttributes) (r : ResourceAttributes), matchPolicy p u r = false := by
    intro u r
    rw [Bool.eq_false_iff]
    intro hc
    obtain ⟨-, -, -, hres, -, hpath, -⟩ := (matchPolicy_eq_true_iff p u r).mp hc
    rcases hres with h | h | h
    · exact h1 h
    · exact h2 h
    · rcases hpath with h' | h' | h'
      · exact h3 h'
      · exact h4 h'
      · exact h5 (h.trans h'.symm)
  refine ⟨hm, fun pre post u r => ?_⟩
  simp [PolicyManager.Evaluate, List.any_append, List.any_cons, hm u r]

/-- C9 witness: a rule demanding resource `a` and non-resource path `b`
matches no concrete request, in particular not one for resource `a`. -/
theorem unsatisfiable_rule_never_matches_witness :
    matchPolicy
      { Role := "*", User := "*", Group := "*", Resource := "a",
        Namespace := "*", ReadOnly := false, NonResourcePath := "b" }
      { UserID := "u", GroupID := "g", Roles := ["admin"] }
      { Resource := "a", Namespace := "ns", ReadOnly := false } = false :=
  (unsatisfiable_rule_never_matches _
    (by decide) (by decide) (by decide) (by decide) (by decide)).1
    { UserID := "u", GroupID := "g", Roles := ["admin"] }
    { Resource := "a", Namespace := "ns", ReadOnly := false }

/-- C10: evaluating a concatenated store is the disjunction of
evaluating the two parts, and appending further policies via
`WithPolicies` never turns a true `Evaluate` result into false. -/
theorem Evaluate_append_disjunction (s t : List PolicySpec)
    (u : UserAttributes) (r : ResourceAttributes) :
    PolicyManager.Evaluate { policies := s ++ t } u r =
      (PolicyManager.Evaluate { policies := s } u r ||
       PolicyManager.Evaluate { policies := t } u r) ∧
    (∀ pm : PolicyManager, pm.Evaluate u r = true →
      PolicyManager.Evaluate (WithPolicies t pm) u r = true) := by
  constructor
  · simp [PolicyManager.Evaluate, List.any_append]
  · intro pm hpm
    show (pm.policies ++ t).any (fun policy => matchPolicy policy u r) = true
    have hpm' : pm.policies.any (fun policy => matchPolicy policy u r) = true := hpm
    simp [List.any_append, hpm']

/-- C10 witness: the disjunction identity at a concrete split of the
default table, where the left part already matches a read-only
request. -/
theorem Evaluate_append_disjunction_witness :
    PolicyManager.Evaluate
      { policies := [{ Role := "*", User := "*", Group := "*", Resource := "*",
                       Namespace := "*", ReadOnly := true, NonResourcePath := "*" }] ++
                    [{ Role := "admin", User := "*", Group := "*", Resource := "*",
                       Namespace := "*", ReadOnly := false, NonResourcePath := "*" }] }
      { UserID := "u", GroupID := "g", Roles := [] }
      { Resource := "res", Namespace := "ns", ReadOnly := true } =
      (PolicyManager.Evaluate
        { policies := [{ Role := "*", User := "*", Group := "*", Resource := "*",
                         Namespace := "*", ReadOnly := true, NonResourcePath := "*" }] }
        { UserID := "u", GroupID := "g", Roles := [] }
        { Resource := "res", Namespace := "ns", ReadOnly := true } ||
       PolicyManager.Evaluate
        { policies := [{ Role := "admin", User := "*", Group := "*", Resource := "*",
                         Namespace := "*", ReadOnly := false, NonResourcePath := "*" }] }
        { UserID := "u", GroupID := "g", Roles := [] }
        { Resource := "res", Namespace := "ns", ReadOnly := true }) :=
  (Evaluate_append_disjunction _ _
    { UserID := "u", GroupID := "g", Roles := [] }
    { Resource := "res", Namespace := "ns", ReadOnly := true }).1
